import Mathlib

/-!
Formal model of the infotainer publish/subscribe broker.

The definitions below are a shallow embedding of the Rust modules
`src/src/pubsub.rs`, `src/src/data_log.rs`, `src/src/sessions.rs` and
`src/src/websocket.rs`.  `Uuid` values are modelled as natural numbers
(only identity matters), `HashMap`/`HashSet` as association lists resp.
duplicate-free lists, byte vectors as lists of naturals, and actor
mailbox dispatches as explicit effect traces.  Fallible operations
return `Except`; nondeterministic inputs of a handler (the fresh v4
UUID, mailbox acceptance of a `try_send`) are explicit parameters.
-/

set_option autoImplicit false

/-- The 128-bit UUIDs of the system, modelled as natural numbers. -/
abbrev Uuid := Nat

/-- Opaque actix actor address handle (an `Addr` only serves as a delivery target). -/
abbrev ActorAddr := Nat

/-- Lookup in the association-list model of `std::collections::HashMap`. -/
def mapLookup {κ α : Type} [DecidableEq κ] (m : List (κ × α)) (k : κ) : Option α :=
  match m with
  | [] => none
  | (k', v) :: rest => if k' = k then some v else mapLookup rest k

/-- Model of `HashMap::insert`: replace the binding in place when the key is
present, otherwise append a new binding. -/
def mapInsert {κ α : Type} [DecidableEq κ] (m : List (κ × α)) (k : κ) (v : α) :
    List (κ × α) :=
  match m with
  | [] => [(k, v)]
  | (k', v') :: rest => if k' = k then (k, v) :: rest else (k', v') :: mapInsert rest k v

/-- Model of `HashMap::remove` (the returned value is discarded by all call sites). -/
def mapErase {κ α : Type} [DecidableEq κ] (m : List (κ × α)) (k : κ) : List (κ × α) :=
  match m with
  | [] => []
  | (k', v') :: rest => if k' = k then rest else (k', v') :: mapErase rest k

/-- Model of `HashSet::insert`: add the element when absent. -/
def setInsert (s : List Uuid) (x : Uuid) : List Uuid :=
  if x ∈ s then s else x :: s

/-- Remove the first occurrence of an element from a list; absent elements
leave the list unchanged.  This is `Vec::remove` at the index found by
`Iterator::position`. -/
def removeFirst (l : List Uuid) (x : Uuid) : List Uuid :=
  match l with
  | [] => []
  | y :: rest => if y = x then rest else y :: removeFirst rest x

/-- Errors caused by client interaction, from `src/src/websocket.rs`. -/
inductive ClientError : Type
  | InvalidInput (msg : String)
deriving DecidableEq

/-- Display form of a `ClientError`, from its `fail(display = ...)` attribute. -/
def ClientError.display : ClientError → String
  | .InvalidInput m => ("Invalid Input: ") ++ m

/-- Errors of the data log, from `src/src/data_log.rs`. -/
inductive DataLogError : Type
  | FileSystem (msg : String)
  | DataLogRequest (msg : String)
  | SerializerError (msg : String)
deriving DecidableEq

/-- Errors of the session service, from `src/src/sessions.rs`. -/
inductive SessionError : Type
  | SessionNotFound (msg : String)
deriving DecidableEq

/-- Subscription metadata, from `src/src/pubsub.rs` (`SubscriptionMeta`). -/
structure SubscriptionMeta where
  name : String
deriving DecidableEq

/-- An entry of the subscription store, from `src/src/pubsub.rs`
(`Subscription`): identifier, metadata, an ordered `Vec` of subscribed
client ids, and the `HashSet` log of published message ids. -/
structure Subscription where
  id : Uuid
  metadata : SubscriptionMeta
  subscribers : List Uuid
  log : List Uuid
deriving DecidableEq

/-- Constructor `Subscription::new`. -/
def Subscription.new (id : Uuid) (name : String) : Subscription :=
  { id := id, metadata := { name := name }, subscribers := [], log := [] }

/-- Method `Subscription::append_subscriber`: push the subscriber onto the
`Vec` unless it is already contained. -/
def Subscription.append_subscriber (s : Subscription) (subscriber : Uuid) : Subscription :=
  if subscriber ∈ s.subscribers then s
  else { s with subscribers := s.subscribers ++ [subscriber] }

/-- Method `Subscription::remove_subscriber`: remove the first position at
which the subscriber occurs, if any. -/
def Subscription.remove_subscriber (s : Subscription) (subscriber : Uuid) : Subscription :=
  { s with subscribers := removeFirst s.subscribers subscriber }

/-- The subscription store, from `src/src/pubsub.rs` (`Subscriptions`). -/
structure Subscriptions where
  store : List (Uuid × Subscription)
deriving DecidableEq

/-- Constructor `Subscriptions::new`. -/
def Subscriptions.new : Subscriptions := { store := [] }

/-- Method `Subscriptions::index`: the keys of the store. -/
def Subscriptions.index (s : Subscriptions) : List Uuid :=
  s.store.map (fun kv => kv.1)

/-- Method `Subscriptions::update`: insert-or-replace the whole record. -/
def Subscriptions.update (s : Subscriptions) (sub : Subscription) : Subscriptions :=
  { store := mapInsert s.store sub.id sub }

/-- Method `Subscriptions::fetch`: clone the record, or fail. -/
def Subscriptions.fetch (s : Subscriptions) (id : Uuid) : Except ClientError Subscription :=
  match mapLookup s.store id with
  | some sub => .ok sub
  | none => .error (ClientError.InvalidInput ("No such entry"))

/-- Method `Subscriptions::remove`. -/
def Subscriptions.remove (s : Subscriptions) (id : Uuid) : Subscriptions :=
  { store := mapErase s.store id }

/-- An accepted submission, from `src/src/pubsub.rs` (`Publication`): a fresh
id and the payload bytes. -/
structure Publication where
  id : Uuid
  data : List Nat
deriving DecidableEq

/-- A client submission as consumed by `PubSubServer::publish`.  The struct is
referenced from the websocket module; its two fields (target subscription id
and payload bytes) are exactly the ones `publish` and the tests use. -/
structure ClientSubmission where
  id : Uuid
  data : List Nat
deriving DecidableEq

/-- A data log entry, from `src/src/data_log.rs` (`DataLogEntry`). -/
inductive DataLogEntry : Type
  | Publications (entries : List Publication)
  | Subscribers (subscribers : List Uuid)
deriving DecidableEq

/-- Conversion `From<&Publication> for DataLogEntry`. -/
def DataLogEntry.ofPublication (p : Publication) : DataLogEntry :=
  DataLogEntry.Publications [p]

/-- The requests a client can issue, as consumed by the `ClientMessage`
handler of `src/src/pubsub.rs` (the enum is referenced from the websocket
module; the five variants and their parameters are the ones matched there). -/
inductive ClientRequest : Type
  | List
  | Add (param : Uuid)
  | Get (param : Uuid)
  | Submit (param : ClientSubmission)
  | Remove (param : Uuid)
deriving DecidableEq

/-- A client message: the sending client id plus its request. -/
structure ClientMessage where
  id : Uuid
  request : ClientRequest
deriving DecidableEq

/-- Data sent by the server in response to a `ClientRequest`, from
`src/src/pubsub.rs` (`Response`). -/
inductive Response : Type
  | List (data : List Uuid)
  | Add (data : Uuid)
  | Get (data : List Uuid)
  | Remove (data : Uuid)
  | Empty
deriving DecidableEq

/-- The broker actor state, from `src/src/pubsub.rs` (`PubSubServer`):
subscription store, connected sessions, and the optional data logger. -/
structure PubSubServer where
  subscriptions : Subscriptions
  sessions : List (Uuid × ActorAddr)
  data_logger : Option ActorAddr
deriving DecidableEq

/-- Constructor `PubSubServer::default`. -/
def PubSubServer.default : PubSubServer :=
  { subscriptions := Subscriptions.new, sessions := [], data_logger := none }

/-- Observable mailbox dispatches of a broker handler run, in program order:
the `try_send` of a persist request to the `DataLogger`, the `do_send` of a
publication to a subscriber session, and the `do_send` of a response to the
requesting session. -/
inductive Effect : Type
  | persist (subscriptionId : Uuid) (entry : DataLogEntry)
  | deliver (clientId : Uuid) (addr : ActorAddr) (publication : Publication)
  | respond (clientId : Uuid) (addr : ActorAddr) (resp : Response)
deriving DecidableEq

/-- Outcome of `PubSubServer::publish`: `Ok`, `Err`, or the panic raised by
the `unwrap` on a failed persist dispatch. -/
inductive PublishOutcome : Type
  | ok
  | err (e : ClientError)
  | panicked
deriving DecidableEq

/-- Result of one run of `PubSubServer::publish`: outcome, post state, and
the ordered trace of dispatched messages. -/
structure PublishRun where
  outcome : PublishOutcome
  server : PubSubServer
  trace : List Effect
deriving DecidableEq

/-- Method `PubSubServer::dump_log`. -/
def PubSubServer.dump_log (srv : PubSubServer) (subscription_id : Uuid) :
    Except ClientError (List Uuid) :=
  (srv.subscriptions.fetch subscription_id).map (fun sub => sub.log)

/-- Method `PubSubServer::send_response`: `do_send` to the session of the
client when present, otherwise only log. -/
def PubSubServer.send_response (srv : PubSubServer) (client_id : Uuid) (resp : Response) :
    List Effect :=
  match mapLookup srv.sessions client_id with
  | some a => [Effect.respond client_id a resp]
  | none => []

/-- The fan-out loop of `PubSubServer::publish`: for each subscriber in `Vec`
order, `do_send` the publication when a session is found, else skip. -/
def fanOut (sessions : List (Uuid × ActorAddr)) (subscribers : List Uuid)
    (p : Publication) : List Effect :=
  subscribers.filterMap (fun s => (mapLookup sessions s).map (fun a => Effect.deliver s a p))

/-- Method `PubSubServer::publish`.  `freshId` is the `Uuid::new_v4` drawn
for the publication; `persistAccepts` tells whether the `try_send` of the
persist request to the data logger mailbox succeeds (its failure makes the
`unwrap` panic before anything further happens). -/
def PubSubServer.publish (srv : PubSubServer) (submission : ClientSubmission)
    (freshId : Uuid) (persistAccepts : Bool) : PublishRun :=
  match srv.subscriptions.fetch submission.id with
  | .ok sub =>
      let publication : Publication := { id := freshId, data := submission.data }
      match srv.data_logger with
      | some _ =>
          let attempt := Effect.persist sub.id (DataLogEntry.ofPublication publication)
          if persistAccepts then
            let sub' := { sub with log := setInsert sub.log publication.id }
            let srv' := { srv with subscriptions := srv.subscriptions.update sub' }
            { outcome := .ok, server := srv',
              trace := attempt :: fanOut srv'.sessions sub'.subscribers publication }
          else
            { outcome := .panicked, server := srv, trace := [attempt] }
      | none =>
          { outcome := .ok, server := srv,
            trace := fanOut srv.sessions sub.subscribers publication }
  | .error e =>
      { outcome := .err (ClientError.InvalidInput e.display), server := srv, trace := [] }

/-- Outcome of the broker `ClientMessage` handler. -/
inductive HandleOutcome : Type
  | ok
  | err (e : ClientError)
  | panicked
deriving DecidableEq

/-- Result of one run of the broker `ClientMessage` handler. -/
structure HandleRun where
  outcome : HandleOutcome
  server : PubSubServer
  trace : List Effect
deriving DecidableEq

/-- The `Handler<ClientMessage>` implementation of `src/src/pubsub.rs`.  Each
arm computes a response; `Get` and `Submit` propagate errors early (no
response is sent then); otherwise the response goes to the requesting
session. -/
def PubSubServer.handleClientMessage (srv : PubSubServer) (msg : ClientMessage)
    (freshId : Uuid) (persistAccepts : Bool) : HandleRun :=
  match msg.request with
  | .List =>
      { outcome := .ok, server := srv,
        trace := srv.send_response msg.id (Response.List srv.subscriptions.index) }
  | .Add param =>
      match srv.subscriptions.fetch param with
      | .ok s =>
          let s' := s.append_subscriber msg.id
          let srv' := { srv with subscriptions := srv.subscriptions.update s' }
          { outcome := .ok, server := srv',
            trace := srv'.send_response msg.id (Response.Add s'.id) }
      | .error _ =>
          let newSub := (Subscription.new param (toString msg.id)).append_subscriber msg.id
          let srv' := { srv with subscriptions := srv.subscriptions.update newSub }
          { outcome := .ok, server := srv',
            trace := srv'.send_response msg.id (Response.Add newSub.id) }
  | .Get param =>
      match srv.dump_log param with
      | .ok data =>
          { outcome := .ok, server := srv,
            trace := srv.send_response msg.id (Response.Get data) }
      | .error e => { outcome := .err e, server := srv, trace := [] }
  | .Submit param =>
      let run := srv.publish param freshId persistAccepts
      match run.outcome with
      | .ok =>
          { outcome := .ok, server := run.server,
            trace := run.trace ++ run.server.send_response msg.id Response.Empty }
      | .err e => { outcome := .err e, server := run.server, trace := run.trace }
      | .panicked => { outcome := .panicked, server := run.server, trace := run.trace }
  | .Remove param =>
      match srv.subscriptions.fetch param with
      | .ok s =>
          let s' := s.remove_subscriber msg.id
          let srv' := { srv with subscriptions := srv.subscriptions.update s' }
          { outcome := .ok, server := srv',
            trace := srv'.send_response msg.id (Response.Remove s'.id) }
      | .error _ =>
          { outcome := .ok, server := srv,
            trace := srv.send_response msg.id (Response.Remove msg.id) }

/-- The `Handler<ClientJoin>` implementation: insert the session. -/
def PubSubServer.handleClientJoin (srv : PubSubServer) (id : Uuid) (addr : ActorAddr) :
    PubSubServer :=
  { srv with sessions := mapInsert srv.sessions id addr }

/-- The `Handler<ClientDisconnect>` implementation: remove the session. -/
def PubSubServer.handleClientDisconnect (srv : PubSubServer) (id : Uuid) : PubSubServer :=
  { srv with sessions := mapErase srv.sessions id }

/-- A concrete one-subscription broker with an attached data logger. -/
def srvPersistDemo : PubSubServer :=
  { subscriptions := { store := [(1, Subscription.new 1 ("t"))] },
    sessions := [], data_logger := some 5 }

/-- A subscription holding exactly one subscriber, client 7. -/
def subOneSubscriber : Subscription :=
  { id := 1, metadata := { name := ("7") }, subscribers := [7], log := [] }

/-- A broker whose registry holds only `subOneSubscriber`. -/
def srvOneSubscriber : PubSubServer :=
  { subscriptions := { store := [(1, subOneSubscriber)] }, sessions := [], data_logger := none }

/-- A broker with one subscription (subscriber 8) and a session for client 7. -/
def srvNonSubscriber : PubSubServer :=
  { subscriptions :=
      { store := [(1, { id := 1, metadata := { name := ("x") }, subscribers := [8], log := [] })] },
    sessions := [(7, 70)], data_logger := none }

/-- A broker with subscription 1 subscribed by clients 7 and 8, both with
live sessions. -/
def srvTwoClients : PubSubServer :=
  { subscriptions :=
      { store := [(1, { id := 1, metadata := { name := ("x") }, subscribers := [7, 8], log := [] })] },
    sessions := [(7, 70), (8, 80)], data_logger := none }

/-- Filesystem paths, modelled as their component lists (`PathBuf`). -/
abbrev PathBuf := List String

/-- Contents of a file in the data directory: the self-describing CBOR
encoding of a `Publication` (one per log entry file) or of a subscriber
list (the `subscribers` file).  The encoding is modelled as the encoded
value itself; CBOR serialization of these types cannot fail. -/
inductive FileContent : Type
  | publicationFile (p : Publication)
  | subscribersFile (subs : List Uuid)
deriving DecidableEq

/-- Display of the `std::io::Error` produced by opening a missing file with
read options: the bare OS error text, which carries no path and hence no
publication id. -/
def enoentMsg : String := "No such file or directory (os error 2)"

/-- The filesystem as the data logger sees it: a map from paths to file
contents, and an environment-chosen set of paths on which create/open/write
calls fail, together with the OS error text they fail with. -/
structure FileSystem where
  files : List (PathBuf × FileContent)
  failing : List (PathBuf × String)
deriving DecidableEq

/-- Create-plus-write open of a file (`OpenOptions::new().create(true).write(true)`
followed by `serde_cbor::to_writer`), converted through
`From<std::io::Error> for DataLogError`. -/
def FileSystem.writeFile (fs : FileSystem) (p : PathBuf) (c : FileContent) :
    Except DataLogError FileSystem :=
  match mapLookup fs.failing p with
  | some e => .error (DataLogError.FileSystem e)
  | none => .ok { fs with files := mapInsert fs.files p c }

/-- Model of `std::fs::create_dir_all`: directories are not tracked; the call
fails exactly when the environment marks the directory path as failing. -/
def FileSystem.createDirAll (fs : FileSystem) (p : PathBuf) : Except DataLogError FileSystem :=
  match mapLookup fs.failing p with
  | some e => .error (DataLogError.FileSystem e)
  | none => .ok fs

/-- Model of `std::fs::create_dir`; an already-existing directory surfaces as
an io error, which the environment also expresses through `failing`. -/
def FileSystem.createDir (fs : FileSystem) (p : PathBuf) : Except DataLogError FileSystem :=
  match mapLookup fs.failing p with
  | some e => .error (DataLogError.FileSystem e)
  | none => .ok fs

/-- Read open of a file (`OpenOptions::new().read(true)`): a missing file
gives the OS no-such-file error text. -/
def FileSystem.readFile (fs : FileSystem) (p : PathBuf) : Except DataLogError FileContent :=
  match mapLookup fs.failing p with
  | some e => .error (DataLogError.FileSystem e)
  | none =>
      match mapLookup fs.files p with
      | some c => .ok c
      | none => .error (DataLogError.FileSystem enoentMsg)

/-- Model of `serde_cbor::from_reader::<Publication>`: decoding a file that
does not hold a publication fails with a serializer error. -/
def decodePublication : FileContent → Except DataLogError Publication
  | .publicationFile p => .ok p
  | .subscribersFile _ => .error (DataLogError.SerializerError ("invalid type"))

/-- The write request of `src/src/data_log.rs` (`DataLogPut`). -/
structure DataLogPut where
  data_log_id : Uuid
  data_log_entry : DataLogEntry
deriving DecidableEq

/-- The index request of `src/src/data_log.rs` (`DataLogIndex`). -/
structure DataLogIndex where
  client_id : Uuid
  data_log_id : Uuid
deriving DecidableEq

/-- The entry-fetch request of `src/src/data_log.rs` (`DataLogFetch`). -/
structure DataLogFetch where
  client_id : Uuid
  data_log_id : Uuid
  requested_datalog_entries : List Uuid
deriving DecidableEq

/-- The data logger actor state, from `src/src/data_log.rs` (`DataLogger`):
the in-memory per-subscription index of publication ids and the data
directory (the recipient handle for session lookups is modelled by passing
the session service state to the handlers). -/
structure DataLogger where
  log_index : List (Uuid × List Uuid)
  data_dir : PathBuf
deriving DecidableEq

/-- The session registry actor, from `src/src/sessions.rs` (`SessionService`). -/
structure SessionService where
  sessions : List (Uuid × ActorAddr)
deriving DecidableEq

/-- Constructor `SessionService::new`. -/
def SessionService.new : SessionService := { sessions := [] }

/-- Method `SessionService::insert_session` (the `InsertSession` handler). -/
def SessionService.insert_session (svc : SessionService) (client_id : Uuid)
    (addr : ActorAddr) : SessionService :=
  { sessions := mapInsert svc.sessions client_id addr }

/-- Method `SessionService::remove_session` (the `RemoveSession` handler). -/
def SessionService.remove_session (svc : SessionService) (client_id : Uuid) : SessionService :=
  { sessions := mapErase svc.sessions client_id }

/-- Method `SessionService::get_session_addr` (the `GetSessionAddr` handler). -/
def SessionService.get_session_addr (svc : SessionService) (client_id : Uuid) :
    Except SessionError ActorAddr :=
  match mapLookup svc.sessions client_id with
  | some entry => .ok entry
  | none => .error (SessionError.SessionNotFound (toString client_id))

/-- The per-item loop of the `DataLogPut` handler for publication entries:
write the entry file, then insert the publication id into the index entry of
the log (creating it when absent); an error returns early, keeping the
files already written and the index insertions already made. -/
def indexInsertStep (act : DataLogger) (logId pubId : Uuid) : DataLogger :=
  { act with log_index := mapInsert act.log_index logId (setInsert ((mapLookup act.log_index logId).getD []) pubId) }

def putPublications (items : List Publication) (logId : Uuid) (dirPath : PathBuf)
    (act : DataLogger) (fs : FileSystem) :
    Except DataLogError Unit × DataLogger × FileSystem :=
  match items with
  | [] => (.ok (), act, fs)
  | item :: rest =>
      match fs.writeFile (dirPath ++ [toString item.id]) (FileContent.publicationFile item) with
      | .error e => (.error e, act, fs)
      | .ok fs' => putPublications rest logId dirPath (indexInsertStep act logId item.id) fs'

/-- The `Handler<DataLogPut>` implementation of `src/src/data_log.rs`. -/
def DataLogger.handleDataLogPut (act : DataLogger) (fs : FileSystem) (request : DataLogPut) :
    Except DataLogError Unit × DataLogger × FileSystem :=
  let log_path := act.data_dir ++ [toString request.data_log_id]
  match request.data_log_entry with
  | .Subscribers subs =>
      match fs.createDir log_path with
      | .error e => (.error e, act, fs)
      | .ok fs1 =>
          match fs1.writeFile (log_path ++ [("subscribers")]) (FileContent.subscribersFile subs) with
          | .error e => (.error e, act, fs1)
          | .ok fs2 => (.ok (), act, fs2)
  | .Publications entries =>
      let pubs_path := log_path ++ [("publications")]
      match fs.createDirAll pubs_path with
      | .error e => (.error e, act, fs)
      | .ok fs1 => putPublications entries request.data_log_id pubs_path act fs1

/-- The `Handler<DataLogIndex>` implementation of `src/src/data_log.rs`:
resolve the requesting session through the session service, then send it the
full index set of the log, or fail with a request error when the log has no
index entry (or the session or the send fails).  `sendFail` is the display
of a failed `try_send` to the resolved recipient, `none` when the mailbox
accepts.  The returned list holds the reply dispatches. -/
def DataLogger.handleDataLogIndex (act : DataLogger) (svc : SessionService)
    (request : DataLogIndex) (sendFail : Option String) :
    Except DataLogError Unit × List (ActorAddr × List Uuid) :=
  match (svc.get_session_addr request.client_id).toOption with
  | some recipient =>
      match mapLookup act.log_index request.data_log_id with
      | some log_index =>
          match sendFail with
          | some e => (.error (DataLogError.DataLogRequest e), [])
          | none => (.ok (), [(recipient, log_index)])
      | none => (.error (DataLogError.DataLogRequest ("No such data log")), [])
  | none =>
      (.error (DataLogError.DataLogRequest
        ("Could not retrieve retrieve recipient from session service.")), [])

/-- The read loop of the `DataLogFetch` handler: open and decode the file of
each requested id in request order, failing on the first missing or
undecodable file. -/
def readEntries (fs : FileSystem) (dirPath : PathBuf) :
    List Uuid → Except DataLogError (List Publication)
  | [] => .ok []
  | item :: rest =>
      match fs.readFile (dirPath ++ [toString item]) with
      | .error e => .error e
      | .ok c =>
          match decodePublication c with
          | .error e => .error e
          | .ok p => (readEntries fs dirPath rest).map (fun ps => p :: ps)

/-- The `Handler<DataLogFetch>` implementation of `src/src/data_log.rs`:
resolve the requesting session, read all requested entries in order, then
send the decoded list to the session (errors from the reads propagate before
any send; an unresolved session or failed send is a request error). -/
def DataLogger.handleDataLogFetch (act : DataLogger) (fs : FileSystem) (svc : SessionService)
    (request : DataLogFetch) (sendFail : Option String) :
    Except DataLogError Unit × List (ActorAddr × List Publication) :=
  let client_addr := (svc.get_session_addr request.client_id).toOption
  let log_path := act.data_dir ++ [toString request.data_log_id, ("publications")]
  match readEntries fs log_path request.requested_datalog_entries with
  | .error e => (.error e, [])
  | .ok read_results =>
      match client_addr with
      | some receiver =>
          match sendFail with
          | some e => (.error (DataLogError.DataLogRequest e), [])
          | none => (.ok (), [(receiver, read_results)])
      | none =>
          (.error (DataLogError.DataLogRequest
            ("Could not retrieve recipient from session service")), [])

/-- The commands a connected client can send over the websocket, from
`src/src/websocket.rs` (`ClientCommand`). -/
inductive ClientCommand : Type
  | GetLogIndex (client_id : Uuid) (log_id : Uuid)
  | GetLogEntries (client_id : Uuid) (log_id : Uuid) (entries : List Uuid)
  | Subscribe (client_id : Uuid) (subscription_id : Uuid)
  | Unsubscribe (client_id : Uuid) (subscription_id : Uuid)
  | SubmitPublication (client_id : Uuid) (subscription_id : Uuid) (submission : List Nat)
deriving DecidableEq

/-- Modelled from the spec: the subscription-management command of the
broker referenced by `src/src/websocket.rs` as `pubsub::ManageSubscription`
(its defining module is not among the provided sources); §4.3 names the two
operations Subscribe Add and Subscribe Remove. -/
inductive ManageSubscription : Type
  | Add (client_id : Uuid) (subscription_id : Uuid)
  | Remove (client_id : Uuid) (subscription_id : Uuid)
deriving DecidableEq

/-- A message the session endpoint forwards to the broker or the data log on
behalf of a decoded binary frame. -/
inductive ForwardedMessage : Type
  | toPubSub (cmd : ManageSubscription)
  | submitCmd (client_id : Uuid) (subscription_id : Uuid) (submission : List Nat)
  | toDataLogIndex (req : DataLogIndex)
  | toDataLogFetch (req : DataLogFetch)
deriving DecidableEq

/-- The dispatch of a decoded binary frame by the `StreamHandler`
implementation of `src/src/websocket.rs`: each `ClientCommand` variant is
translated into the message the arm actually sends (in particular, the
`Unsubscribe` arm sends `ManageSubscription::Add`, exactly as the source
does). -/
def dispatchClientCommand : ClientCommand → ForwardedMessage
  | .GetLogEntries client_id log_id entries =>
      .toDataLogFetch
        { client_id := client_id, data_log_id := log_id,
          requested_datalog_entries := entries }
  | .GetLogIndex client_id log_id =>
      .toDataLogIndex { client_id := client_id, data_log_id := log_id }
  | .SubmitPublication client_id subscription_id submission =>
      .submitCmd client_id subscription_id submission
  | .Subscribe client_id subscription_id =>
      .toPubSub (ManageSubscription.Add client_id subscription_id)
  | .Unsubscribe client_id subscription_id =>
      .toPubSub (ManageSubscription.Add client_id subscription_id)

/-- A data logger whose in-memory index is empty. -/
def dataLoggerEmptyIndex : DataLogger := { log_index := [], data_dir := [("data")] }

/-- A data logger with an index entry for log 9. -/
def dataLoggerOneEntry : DataLogger := { log_index := [(9, [4, 5])], data_dir := [("data")] }

/-- A session service holding a session for client 3. -/
def sessionSvcOne : SessionService := { sessions := [(3, 30)] }

/-- The durable path of a publication entry file:
`data_dir/<subscriptionId>/publications/<publicationId>`. -/
def pubFilePath (data_dir : PathBuf) (logId pubId : Uuid) : PathBuf :=
  data_dir ++ [toString logId, ("publications"), toString pubId]

/-- Index durability: every publication id recorded in the in-memory log
index has a file at its durable path. -/
def IndexDurable (act : DataLogger) (fs : FileSystem) : Prop :=
  ∀ logId idxSet pubId, mapLookup act.log_index logId = some idxSet → pubId ∈ idxSet →
    ∃ c, mapLookup fs.files (pubFilePath act.data_dir logId pubId) = some c

/-- A put request writing one publication (id 4) to log 9. -/
def demoPutRequest : DataLogPut :=
  { data_log_id := 9, data_log_entry := DataLogEntry.Publications [{ id := 4, data := [1] }] }

/-- The empty filesystem, with no failing paths. -/
def emptyFs : FileSystem := { files := [], failing := [] }

/-- A filesystem holding the two publication entry files of log 9. -/
def fsTwoEntries : FileSystem :=
  { files :=
      [((([("data"), toString (9 : Uuid), ("publications")]) ++ [toString (4 : Uuid)]),
          FileContent.publicationFile { id := 4, data := [1] }),
        ((([("data"), toString (9 : Uuid), ("publications")]) ++ [toString (5 : Uuid)]),
          FileContent.publicationFile { id := 5, data := [2] })],
    failing := [] }

/-! Basic lemmas about the association-list map model. -/

theorem mapLookup_mapInsert_self {κ α : Type} [DecidableEq κ]
    (m : List (κ × α)) (k : κ) (v : α) : mapLookup (mapInsert m k v) k = some v := by
  induction m with
  | nil => simp [mapInsert, mapLookup]
  | cons kv rest ih =>
      by_cases h : kv.1 = k
      · simp [mapInsert, h, mapLookup]
      · simp [mapInsert, h, mapLookup, ih]

theorem mapLookup_mapInsert_ne {κ α : Type} [DecidableEq κ]
    (m : List (κ × α)) (k k' : κ) (v : α) (h : k ≠ k') :
    mapLookup (mapInsert m k v) k' = mapLookup m k' := by
  induction m with
  | nil => simp [mapInsert, mapLookup, h]
  | cons kv rest ih =>
      by_cases hk : kv.1 = k
      · simp [mapInsert, hk, mapLookup, h]
      · simp [mapInsert, hk, mapLookup, ih]

theorem mapInsert_of_mapLookup_eq {κ α : Type} [DecidableEq κ]
    (m : List (κ × α)) (k : κ) (v : α) (h : mapLookup m k = some v) :
    mapInsert m k v = m := by
  induction m with
  | nil => simp [mapLookup] at h
  | cons kv rest ih =>
      obtain ⟨a, b⟩ := kv
      by_cases hk : a = k
      · subst hk
        have hv : b = v := by simpa [mapLookup] using h
        simp [mapInsert, hv]
      · have h' : mapLookup rest k = some v := by simpa [mapLookup, hk] using h
        simp [mapInsert, hk, ih h']

theorem mapLookup_mapErase_ne {κ α : Type} [DecidableEq κ]
    (m : List (κ × α)) (k k' : κ) (h : k ≠ k') :
    mapLookup (mapErase m k) k' = mapLookup m k' := by
  induction m with
  | nil => simp [mapErase]
  | cons kv rest ih =>
      by_cases hk : kv.1 = k
      · have : ¬ kv.1 = k' := by
          rw [hk]
          exact h
        simp [mapErase, hk, mapLookup, this, h]
      · simp [mapErase, hk, mapLookup, ih]

theorem mapLookup_mapErase_self {κ α : Type} [DecidableEq κ]
    (m : List (κ × α)) (k : κ) (hnd : (m.map Prod.fst).Nodup) :
    mapLookup (mapErase m k) k = none := by
  induction m with
  | nil => simp [mapErase, mapLookup]
  | cons kv rest ih =>
      simp only [List.map_cons, List.nodup_cons] at hnd
      by_cases hk : kv.1 = k
      · have : ∀ p ∈ rest, p.1 ≠ k := by
          intro p hp
          have := hnd.1
          intro hpk
          exact this (by
            rw [hk, ← hpk]
            exact List.mem_map_of_mem Prod.fst hp)
        clear ih hnd
        simp only [mapErase, hk, if_pos rfl]
        induction rest with
        | nil => simp [mapLookup]
        | cons q qs ihq =>
            have hq : q.1 ≠ k := this q (by simp)
            simp only [mapLookup, if_neg hq]
            exact ihq (fun p hp => this p (by simp [hp]))
      · simp [mapErase, hk, mapLookup, ih hnd.2]

theorem mapLookup_isSome_mapInsert {κ α : Type} [DecidableEq κ]
    (m : List (κ × α)) (k q : κ) (v : α) (h : ∃ c, mapLookup m q = some c) :
    ∃ c, mapLookup (mapInsert m k v) q = some c := by
  by_cases hq : k = q
  · exact ⟨v, by rw [hq]; exact mapLookup_mapInsert_self m q v⟩
  · rw [mapLookup_mapInsert_ne m k q v hq]
    exact h

theorem removeFirst_of_not_mem (l : List Uuid) (x : Uuid) (h : x ∉ l) :
    removeFirst l x = l := by
  induction l with
  | nil => rfl
  | cons y rest ih =>
      simp only [List.mem_cons, not_or] at h
      have hy : y ≠ x := fun hyx => h.1 hyx.symm
      simp [removeFirst, hy, ih h.2]

theorem mem_setInsert_self (s : List Uuid) (x : Uuid) : x ∈ setInsert s x := by
  by_cases h : x ∈ s
  · simp [setInsert, h]
  · simp [setInsert, h]

theorem mem_setInsert_of_mem (s : List Uuid) (x y : Uuid) (h : y ∈ s) :
    y ∈ setInsert s x := by
  by_cases hx : x ∈ s
  · simp [setInsert, hx, h]
  · simp [setInsert, hx]
    exact Or.inr h

/-- C9: for every subscription state and client id, the subscriber collection
behaves as a set — appending an already-present subscriber leaves it
unchanged (so two subscribes by the same client leave exactly one
occurrence), and removing an absent subscriber leaves it unchanged. -/
theorem subscribers_set_semantics (s : Subscription) (c : Uuid) :
    (c ∈ s.subscribers → s.append_subscriber c = s) ∧
    (c ∉ s.subscribers → s.remove_subscriber c = s) ∧
    ((s.append_subscriber c).append_subscriber c = s.append_subscriber c) ∧
    (c ∉ s.subscribers →
      ((s.append_subscriber c).append_subscriber c).subscribers.count c = 1) := by
  refine ⟨?_, ?_, ?_, ?_⟩
  · intro h
    simp [Subscription.append_subscriber, h]
  · intro h
    simp [Subscription.remove_subscriber, removeFirst_of_not_mem s.subscribers c h]
  · by_cases h : c ∈ s.subscribers
    · simp [Subscription.append_subscriber, h]
    · simp [Subscription.append_subscriber, h]
  · intro h
    simp [Subscription.append_subscriber, h, List.count_append,
      List.count_eq_zero.mpr h]

/-- Closed witness for `subscribers_set_semantics` on a concrete subscription. -/
theorem subscribers_set_semantics_witness :
    ((Subscription.new 1 ("t")).append_subscriber 5).append_subscriber 5 =
        (Subscription.new 1 ("t")).append_subscriber 5 ∧
    (Subscription.new 1 ("t")).remove_subscriber 5 = Subscription.new 1 ("t") ∧
    (((Subscription.new 1 ("t")).append_subscriber 5).append_subscriber 5).subscribers.count 5 = 1 := by
  have h := subscribers_set_semantics (Subscription.new 1 ("t")) 5
  have hnot : 5 ∉ (Subscription.new 1 ("t")).subscribers := by decide
  exact ⟨h.2.2.1, h.2.1 hnot, h.2.2.2 hnot⟩

/-! Lemmas about the fan-out loop of `PubSubServer::publish`. -/

theorem fanOut_deliver_mem (sessions : List (Uuid × ActorAddr)) (subscribers : List Uuid)
    (p p' : Publication) (c : Uuid) (a : ActorAddr)
    (h : Effect.deliver c a p ∈ fanOut sessions subscribers p') :
    c ∈ subscribers ∧ mapLookup sessions c = some a ∧ p = p' := by
  induction subscribers with
  | nil => simp [fanOut] at h
  | cons s rest ih =>
      cases hq : mapLookup sessions s with
      | none =>
          simp only [fanOut, List.filterMap_cons, hq, Option.map_none'] at h
          have := ih h
          exact ⟨List.mem_cons_of_mem s this.1, this.2.1, this.2.2⟩
      | some a' =>
          simp only [fanOut, List.filterMap_cons, hq, Option.map_some', List.mem_cons,
            Effect.deliver.injEq] at h
          rcases h with ⟨hc, ha, hp⟩ | h
          · refine ⟨?_, ?_, hp⟩
            · rw [hc]
              exact List.mem_cons_self s rest
            · rw [hc, hq, ha]
          · have := ih h
            exact ⟨List.mem_cons_of_mem s this.1, this.2.1, this.2.2⟩

theorem mem_fanOut (sessions : List (Uuid × ActorAddr)) (subscribers : List Uuid)
    (p : Publication) (c : Uuid) (a : ActorAddr)
    (hc : c ∈ subscribers) (ha : mapLookup sessions c = some a) :
    Effect.deliver c a p ∈ fanOut sessions subscribers p := by
  induction subscribers with
  | nil => simp at hc
  | cons s rest ih =>
      rcases List.mem_cons.mp hc with h | h
      · subst h
        simp [fanOut, List.filterMap_cons, ha]
      · cases hq : mapLookup sessions s with
        | none => simpa [fanOut, List.filterMap_cons, hq] using ih h
        | some a' =>
            simp only [fanOut, List.filterMap_cons, hq, Option.map_some', List.mem_cons]
            exact Or.inr (ih h)

theorem publish_deliver_mem (srv : PubSubServer) (submission : ClientSubmission)
    (freshId : Uuid) (persistAccepts : Bool) (c : Uuid) (a : ActorAddr) (p : Publication)
    (h : Effect.deliver c a p ∈ (srv.publish submission freshId persistAccepts).trace) :
    mapLookup srv.sessions c = some a := by
  cases hl : mapLookup srv.subscriptions.store submission.id with
  | none => simp [PubSubServer.publish, Subscriptions.fetch, hl] at h
  | some sub =>
      cases hdl : srv.data_logger with
      | none =>
          simp only [PubSubServer.publish, Subscriptions.fetch, hl, hdl] at h
          exact (fanOut_deliver_mem _ _ _ _ _ _ h).2.1
      | some dl =>
          cases persistAccepts with
          | false => simp [PubSubServer.publish, Subscriptions.fetch, hl, hdl] at h
          | true =>
              have htr : (srv.publish submission freshId true).trace =
                  Effect.persist sub.id
                      (DataLogEntry.ofPublication { id := freshId, data := submission.data }) ::
                    fanOut srv.sessions sub.subscribers { id := freshId, data := submission.data } := by
                simp [PubSubServer.publish, Subscriptions.fetch, hl, hdl]
              rw [htr] at h
              rcases List.mem_cons.mp h with h | h
              · exact absurd h (by simp)
              · exact (fanOut_deliver_mem _ _ _ _ _ _ h).2.1

/-- C1: on the publish path for an existing subscription with an attached
data logger, the persist request is the first dispatched effect (hence it
precedes every publication delivery), and when its dispatch fails no
subscriber receives any message: the handler panics with only the failed
persist attempt in its trace. -/
theorem publish_persists_before_issue (srv : PubSubServer) (submission : ClientSubmission)
    (freshId : Uuid) (persistAccepts : Bool) (dl : ActorAddr) (sub : Subscription)
    (hsub : mapLookup srv.subscriptions.store submission.id = some sub)
    (hdl : srv.data_logger = some dl) :
    (∃ rest, (srv.publish submission freshId persistAccepts).trace =
        Effect.persist sub.id (DataLogEntry.ofPublication { id := freshId, data := submission.data }) :: rest) ∧
    (persistAccepts = false →
      (srv.publish submission freshId persistAccepts).outcome = PublishOutcome.panicked ∧
      (srv.publish submission freshId persistAccepts).server = srv ∧
      ∀ c a p, Effect.deliver c a p ∉ (srv.publish submission freshId persistAccepts).trace) := by
  cases persistAccepts with
  | false =>
      refine ⟨⟨[], ?_⟩, ?_⟩
      · simp [PubSubServer.publish, Subscriptions.fetch, hsub, hdl]
      · intro _
        refine ⟨?_, ?_, ?_⟩
        · simp [PubSubServer.publish, Subscriptions.fetch, hsub, hdl]
        · simp [PubSubServer.publish, Subscriptions.fetch, hsub, hdl]
        · intro c a p hmem
          simp [PubSubServer.publish, Subscriptions.fetch, hsub, hdl] at hmem
  | true =>
      have htr : (srv.publish submission freshId true).trace =
          Effect.persist sub.id
              (DataLogEntry.ofPublication { id := freshId, data := submission.data }) ::
            fanOut srv.sessions sub.subscribers { id := freshId, data := submission.data } := by
        simp [PubSubServer.publish, Subscriptions.fetch, hsub, hdl]
      refine ⟨⟨_, htr⟩, ?_⟩
      intro h
      exact absurd h (by simp)

/-- Closed witness for `publish_persists_before_issue`. -/
theorem publish_persists_before_issue_witness :
    (∃ rest, (srvPersistDemo.publish ⟨1, [2, 3]⟩ 4 false).trace =
        Effect.persist 1 (DataLogEntry.ofPublication { id := 4, data := [2, 3] }) :: rest) ∧
    ((srvPersistDemo.publish ⟨1, [2, 3]⟩ 4 false).outcome = PublishOutcome.panicked ∧
      (srvPersistDemo.publish ⟨1, [2, 3]⟩ 4 false).server = srvPersistDemo ∧
      ∀ c a p, Effect.deliver c a p ∉ (srvPersistDemo.publish ⟨1, [2, 3]⟩ 4 false).trace) := by
  have h := publish_persists_before_issue srvPersistDemo ⟨1, [2, 3]⟩ 4 false 5
    (Subscription.new 1 ("t")) rfl rfl
  exact ⟨h.1, h.2 rfl⟩

/-- C6: a submit naming a subscription id absent from the registry fails with
the invalid-input publishing error, dispatches nothing (no persist request,
no delivery, no response), and leaves the broker state unchanged; the same
holds through the `ClientMessage` handler. -/
theorem submit_unknown_subscription_fails (srv : PubSubServer) (c : Uuid)
    (param : ClientSubmission) (freshId : Uuid) (persistAccepts : Bool)
    (habs : mapLookup srv.subscriptions.store param.id = none) :
    (srv.publish param freshId persistAccepts).outcome =
        PublishOutcome.err (ClientError.InvalidInput ("Invalid Input: No such entry")) ∧
    (srv.publish param freshId persistAccepts).server = srv ∧
    (srv.publish param freshId persistAccepts).trace = [] ∧
    (srv.handleClientMessage ⟨c, ClientRequest.Submit param⟩ freshId persistAccepts).outcome =
        HandleOutcome.err (ClientError.InvalidInput ("Invalid Input: No such entry")) ∧
    (srv.handleClientMessage ⟨c, ClientRequest.Submit param⟩ freshId persistAccepts).server = srv ∧
    (srv.handleClientMessage ⟨c, ClientRequest.Submit param⟩ freshId persistAccepts).trace = [] := by
  refine ⟨?_, ?_, ?_, ?_, ?_, ?_⟩ <;>
    simp [PubSubServer.publish, PubSubServer.handleClientMessage, Subscriptions.fetch,
      habs, ClientError.display]

/-- Closed witness for `submit_unknown_subscription_fails`. -/
theorem submit_unknown_subscription_fails_witness :
    (PubSubServer.default.publish ⟨9, [1]⟩ 0 true).outcome =
        PublishOutcome.err (ClientError.InvalidInput ("Invalid Input: No such entry")) ∧
    (PubSubServer.default.publish ⟨9, [1]⟩ 0 true).server = PubSubServer.default ∧
    (PubSubServer.default.publish ⟨9, [1]⟩ 0 true).trace = [] ∧
    (PubSubServer.default.handleClientMessage ⟨7, ClientRequest.Submit ⟨9, [1]⟩⟩ 0 true).outcome =
        HandleOutcome.err (ClientError.InvalidInput ("Invalid Input: No such entry")) ∧
    (PubSubServer.default.handleClientMessage ⟨7, ClientRequest.Submit ⟨9, [1]⟩⟩ 0 true).server =
        PubSubServer.default ∧
    (PubSubServer.default.handleClientMessage ⟨7, ClientRequest.Submit ⟨9, [1]⟩⟩ 0 true).trace = [] :=
  submit_unknown_subscription_fails PubSubServer.default 7 ⟨9, [1]⟩ 0 true rfl

/-- C3 counterexample: handling the unsubscribe that removes the last
subscriber of subscription 1 leaves the record in the registry (with an
empty subscriber set) instead of deleting it — after the unsubscribe a
subscription with an empty subscriber set remains in the registry. -/
theorem remove_last_subscriber_keeps_record_cex :
    (srvOneSubscriber.handleClientMessage ⟨7, ClientRequest.Remove 1⟩ 0 true).server.subscriptions.store =
      [(1, { id := 1, metadata := { name := ("7") }, subscribers := [], log := [] })] := rfl

/-- C3 amended: handling an unsubscribe that removes the last subscriber
updates the registry with the emptied record; the record stays present
(`Subscriptions::remove` is not invoked on this path). -/
theorem remove_last_subscriber_keeps_empty_record (srv : PubSubServer) (c subId : Uuid)
    (s : Subscription) (freshId : Uuid) (persistAccepts : Bool)
    (hfetch : mapLookup srv.subscriptions.store subId = some s)
    (hid : s.id = subId) (hsubs : s.subscribers = [c]) :
    mapLookup ((srv.handleClientMessage ⟨c, ClientRequest.Remove subId⟩ freshId persistAccepts).server).subscriptions.store subId =
      some { s with subscribers := [] } := by
  have hrm : s.remove_subscriber c = { s with subscribers := ([] : List Uuid) } := by
    simp [Subscription.remove_subscriber, hsubs, removeFirst]
  have hid' : ({ s with subscribers := ([] : List Uuid) } : Subscription).id = subId := hid
  simp only [PubSubServer.handleClientMessage, Subscriptions.fetch, hfetch,
    Subscriptions.update, hrm]
  rw [hid']
  exact mapLookup_mapInsert_self _ _ _

/-- Closed witness for `remove_last_subscriber_keeps_empty_record`. -/
theorem remove_last_subscriber_keeps_empty_record_witness :
    mapLookup ((srvOneSubscriber.handleClientMessage ⟨7, ClientRequest.Remove 1⟩ 0 true).server).subscriptions.store 1 =
      some { id := 1, metadata := { name := ("7") }, subscribers := [], log := [] } :=
  remove_last_subscriber_keeps_empty_record srvOneSubscriber 7 1 subOneSubscriber 0 true
    rfl rfl rfl

/-- C5 counterexample: an unsubscribe naming a subscription absent from the
registry does not fail — the handler returns success (after a warning it
responds `Remove` with the client id) and the registry is unchanged, rather
than failing with a not-subscribed error. -/
theorem unsubscribe_absent_succeeds_cex :
    (PubSubServer.default.handleClientMessage ⟨7, ClientRequest.Remove 9⟩ 0 true).outcome =
        HandleOutcome.ok ∧
    (PubSubServer.default.handleClientMessage ⟨7, ClientRequest.Remove 9⟩ 0 true).server =
        PubSubServer.default :=
  ⟨rfl, rfl⟩

/-- C5 amended: an unsubscribe naming an absent subscription, and an
unsubscribe by a client that is not in the subscriber set, both succeed
without error and leave the registry unchanged; the reply is a `Remove`
response carrying the client id resp. the subscription id. -/
theorem unsubscribe_absent_or_nonsubscriber_noop (srv : PubSubServer) (c subId : Uuid)
    (freshId : Uuid) (persistAccepts : Bool) :
    (mapLookup srv.subscriptions.store subId = none →
      (srv.handleClientMessage ⟨c, ClientRequest.Remove subId⟩ freshId persistAccepts).outcome =
          HandleOutcome.ok ∧
      (srv.handleClientMessage ⟨c, ClientRequest.Remove subId⟩ freshId persistAccepts).server = srv ∧
      (srv.handleClientMessage ⟨c, ClientRequest.Remove subId⟩ freshId persistAccepts).trace =
          srv.send_response c (Response.Remove c)) ∧
    (∀ s : Subscription, mapLookup srv.subscriptions.store subId = some s → s.id = subId →
      c ∉ s.subscribers →
      (srv.handleClientMessage ⟨c, ClientRequest.Remove subId⟩ freshId persistAccepts).outcome =
          HandleOutcome.ok ∧
      (srv.handleClientMessage ⟨c, ClientRequest.Remove subId⟩ freshId persistAccepts).server = srv ∧
      (srv.handleClientMessage ⟨c, ClientRequest.Remove subId⟩ freshId persistAccepts).trace =
          srv.send_response c (Response.Remove subId)) := by
  constructor
  · intro habs
    refine ⟨?_, ?_, ?_⟩ <;>
      simp [PubSubServer.handleClientMessage, Subscriptions.fetch, habs]
  · intro s hfetch hid hnotin
    have hrm : s.remove_subscriber c = s := by
      simp [Subscription.remove_subscriber, removeFirst_of_not_mem s.subscribers c hnotin]
    have hupd : srv.subscriptions.update s = srv.subscriptions := by
      have : mapInsert srv.subscriptions.store s.id s = srv.subscriptions.store := by
        rw [hid]
        exact mapInsert_of_mapLookup_eq _ _ _ hfetch
      simp [Subscriptions.update, this]
    refine ⟨?_, ?_, ?_⟩ <;>
      simp [PubSubServer.handleClientMessage, Subscriptions.fetch, hfetch, hrm, hupd, hid]

/-- Closed witness for `unsubscribe_absent_or_nonsubscriber_noop`, exercising
both the absent-subscription case and the non-subscriber case. -/
theorem unsubscribe_absent_or_nonsubscriber_noop_witness :
    ((srvNonSubscriber.handleClientMessage ⟨7, ClientRequest.Remove 9⟩ 0 true).outcome =
        HandleOutcome.ok ∧
      (srvNonSubscriber.handleClientMessage ⟨7, ClientRequest.Remove 9⟩ 0 true).server =
          srvNonSubscriber ∧
      (srvNonSubscriber.handleClientMessage ⟨7, ClientRequest.Remove 9⟩ 0 true).trace =
          srvNonSubscriber.send_response 7 (Response.Remove 7)) ∧
    ((srvNonSubscriber.handleClientMessage ⟨7, ClientRequest.Remove 1⟩ 0 true).outcome =
        HandleOutcome.ok ∧
      (srvNonSubscriber.handleClientMessage ⟨7, ClientRequest.Remove 1⟩ 0 true).server =
          srvNonSubscriber ∧
      (srvNonSubscriber.handleClientMessage ⟨7, ClientRequest.Remove 1⟩ 0 true).trace =
          srvNonSubscriber.send_response 7 (Response.Remove 1)) := by
  constructor
  · exact (unsubscribe_absent_or_nonsubscriber_noop srvNonSubscriber 7 9 0 true).1 rfl
  · exact (unsubscribe_absent_or_nonsubscriber_noop srvNonSubscriber 7 1 0 true).2
      { id := 1, metadata := { name := ("x") }, subscribers := [8], log := [] }
      rfl rfl (by decide)

/-- C10: handling a client disconnect removes only that client from the
session map and leaves the subscription registry completely unchanged; the
disconnected client stays in every subscriber set it had joined, and a later
submit to such a subscription still succeeds — the fan-out loop still
iterates over the client but silently skips it (no delivery to it appears in
the trace), while every other subscriber with a live session is delivered
to. -/
theorem disconnect_frame_properties (srv : PubSubServer) (c : Uuid)
    (hnd : (srv.sessions.map Prod.fst).Nodup) :
    (srv.handleClientDisconnect c).subscriptions = srv.subscriptions ∧
    mapLookup (srv.handleClientDisconnect c).sessions c = none ∧
    (∀ c', c ≠ c' →
      mapLookup (srv.handleClientDisconnect c).sessions c' = mapLookup srv.sessions c') ∧
    (∀ subId s, mapLookup srv.subscriptions.store subId = some s → c ∈ s.subscribers →
      mapLookup (srv.handleClientDisconnect c).subscriptions.store subId = some s) ∧
    (∀ (submission : ClientSubmission) (sub : Subscription) (freshId : Uuid)
        (persistAccepts : Bool),
      mapLookup srv.subscriptions.store submission.id = some sub →
      (srv.data_logger = none ∨ persistAccepts = true) →
      ((srv.handleClientDisconnect c).publish submission freshId persistAccepts).outcome =
          PublishOutcome.ok ∧
      (∀ a p, Effect.deliver c a p ∉
        ((srv.handleClientDisconnect c).publish submission freshId persistAccepts).trace) ∧
      (∀ c' a', c' ∈ sub.subscribers →
        mapLookup (srv.handleClientDisconnect c).sessions c' = some a' →
        Effect.deliver c' a' { id := freshId, data := submission.data } ∈
          ((srv.handleClientDisconnect c).publish submission freshId persistAccepts).trace)) := by
  refine ⟨rfl, ?_, ?_, ?_, ?_⟩
  · exact mapLookup_mapErase_self srv.sessions c hnd
  · intro c' hne
    exact mapLookup_mapErase_ne srv.sessions c c' hne
  · intro subId s hs _
    exact hs
  · intro submission sub freshId persistAccepts hsub hok
    have hsub' : mapLookup (srv.handleClientDisconnect c).subscriptions.store submission.id =
        some sub := hsub
    have hdl' : (srv.handleClientDisconnect c).data_logger = srv.data_logger := rfl
    refine ⟨?_, ?_, ?_⟩
    · rcases hok with hnone | htrue
      · simp [PubSubServer.publish, Subscriptions.fetch, hsub', hdl', hnone]
      · subst htrue
        cases hdl : srv.data_logger with
        | none => simp [PubSubServer.publish, Subscriptions.fetch, hsub', hdl', hdl]
        | some dl => simp [PubSubServer.publish, Subscriptions.fetch, hsub', hdl', hdl]
    · intro a p hmem
      have := publish_deliver_mem (srv.handleClientDisconnect c) submission freshId
        persistAccepts c a p hmem
      have hzero : mapLookup (srv.handleClientDisconnect c).sessions c = none :=
        mapLookup_mapErase_self srv.sessions c hnd
      rw [hzero] at this
      exact Option.noConfusion this
    · intro c' a' hc' ha'
      have hfan : Effect.deliver c' a' { id := freshId, data := submission.data } ∈
          fanOut (srv.handleClientDisconnect c).sessions sub.subscribers
            { id := freshId, data := submission.data } :=
        mem_fanOut _ _ _ _ _ hc' ha'
      rcases hok with hnone | htrue
      · simpa [PubSubServer.publish, Subscriptions.fetch, hsub', hdl', hnone] using hfan
      · subst htrue
        cases hdl : srv.data_logger with
        | none => simpa [PubSubServer.publish, Subscriptions.fetch, hsub', hdl', hdl] using hfan
        | some dl =>
            have htr : ((srv.handleClientDisconnect c).publish submission freshId true).trace =
                Effect.persist sub.id
                    (DataLogEntry.ofPublication { id := freshId, data := submission.data }) ::
                  fanOut (srv.handleClientDisconnect c).sessions sub.subscribers
                    { id := freshId, data := submission.data } := by
              simp [PubSubServer.publish, Subscriptions.fetch, hsub', hdl', hdl]
            rw [htr]
            exact List.mem_cons_of_mem _ hfan

/-- Closed witness for `disconnect_frame_properties`: client 7 disconnects;
a later submit to subscription 1 succeeds, delivers to 8 and not to 7. -/
theorem disconnect_frame_properties_witness :
    (srvTwoClients.handleClientDisconnect 7).subscriptions = srvTwoClients.subscriptions ∧
    mapLookup (srvTwoClients.handleClientDisconnect 7).sessions 7 = none ∧
    mapLookup (srvTwoClients.handleClientDisconnect 7).subscriptions.store 1 =
        some { id := 1, metadata := { name := ("x") }, subscribers := [7, 8], log := [] } ∧
    ((srvTwoClients.handleClientDisconnect 7).publish ⟨1, [9]⟩ 5 true).outcome =
        PublishOutcome.ok ∧
    (∀ a p, Effect.deliver 7 a p ∉
      ((srvTwoClients.handleClientDisconnect 7).publish ⟨1, [9]⟩ 5 true).trace) ∧
    Effect.deliver 8 80 { id := 5, data := [9] } ∈
      ((srvTwoClients.handleClientDisconnect 7).publish ⟨1, [9]⟩ 5 true).trace := by
  have h := disconnect_frame_properties srvTwoClients 7 (by decide)
  have hpub := h.2.2.2.2 ⟨1, [9]⟩
    { id := 1, metadata := { name := ("x") }, subscribers := [7, 8], log := [] } 5 true
    rfl (Or.inl rfl)
  refine ⟨h.1, h.2.1, ?_, hpub.1, hpub.2.1, ?_⟩
  · exact h.2.2.2.1 1 { id := 1, metadata := { name := ("x") }, subscribers := [7, 8], log := [] }
      rfl (by decide)
  · exact hpub.2.2 8 80 (by decide) rfl

/-- C2: evaluating the binary-frame dispatch at a decoded `Unsubscribe`
command shows the session endpoint forwards `ManageSubscription::Add` — the
subscribe command — to the broker, not the subscription-removal command. -/
theorem unsubscribe_frame_forwards_add :
    dispatchClientCommand (ClientCommand.Unsubscribe 7 9) =
      ForwardedMessage.toPubSub (ManageSubscription.Add 7 9) ∧
    dispatchClientCommand (ClientCommand.Unsubscribe 7 9) ≠
      ForwardedMessage.toPubSub (ManageSubscription.Remove 7 9) :=
  ⟨rfl, by decide⟩

/-- C4 counterexample: a pull-index request for a log id with no index entry
fails with a request error and no reply is sent — the handler does not reply
with the empty set. -/
theorem pull_index_missing_entry_fails_cex :
    dataLoggerEmptyIndex.handleDataLogIndex sessionSvcOne ⟨3, 9⟩ none =
      (Except.error (DataLogError.DataLogRequest ("No such data log")), []) := rfl

/-- C4 amended: when the in-memory index has an entry for the requested
subscription id, the full set of publication ids is sent to the resolved
session; when no entry exists, the handler fails with a request error and no
reply is sent. -/
theorem pull_index_reply_or_error (act : DataLogger) (svc : SessionService)
    (client logId : Uuid) (a : ActorAddr)
    (hres : mapLookup svc.sessions client = some a) :
    (∀ idx, mapLookup act.log_index logId = some idx →
      act.handleDataLogIndex svc ⟨client, logId⟩ none = (Except.ok (), [(a, idx)])) ∧
    (mapLookup act.log_index logId = none →
      act.handleDataLogIndex svc ⟨client, logId⟩ none =
        (Except.error (DataLogError.DataLogRequest ("No such data log")), [])) := by
  constructor
  · intro idx hidx
    simp [DataLogger.handleDataLogIndex, SessionService.get_session_addr, hres, hidx,
      Except.toOption]
  · intro hnone
    simp [DataLogger.handleDataLogIndex, SessionService.get_session_addr, hres, hnone,
      Except.toOption]

/-- Closed witness for `pull_index_reply_or_error`. -/
theorem pull_index_reply_or_error_witness :
    dataLoggerOneEntry.handleDataLogIndex sessionSvcOne ⟨3, 9⟩ none =
      (Except.ok (), [(30, [4, 5])]) ∧
    dataLoggerOneEntry.handleDataLogIndex sessionSvcOne ⟨3, 7⟩ none =
      (Except.error (DataLogError.DataLogRequest ("No such data log")), []) := by
  constructor
  · exact (pull_index_reply_or_error dataLoggerOneEntry sessionSvcOne 3 9 30 rfl).1 [4, 5] rfl
  · exact (pull_index_reply_or_error dataLoggerOneEntry sessionSvcOne 3 7 30 rfl).2 rfl

theorem mem_setInsert_elim (s : List Uuid) (x y : Uuid) (h : y ∈ setInsert s x) :
    y = x ∨ y ∈ s := by
  by_cases hx : x ∈ s
  · simp only [setInsert, if_pos hx] at h
    exact Or.inr h
  · simp only [setInsert, if_neg hx, List.mem_cons] at h
    exact h

theorem writeFile_ok (fs fs' : FileSystem) (p : PathBuf) (c : FileContent)
    (h : fs.writeFile p c = .ok fs') :
    fs'.files = mapInsert fs.files p c ∧ fs'.failing = fs.failing := by
  unfold FileSystem.writeFile at h
  cases hl : mapLookup fs.failing p with
  | some e =>
      rw [hl] at h
      exact Except.noConfusion h
  | none =>
      rw [hl] at h
      injection h with h2
      subst h2
      exact ⟨rfl, rfl⟩

theorem createDirAll_ok (fs fs' : FileSystem) (p : PathBuf)
    (h : fs.createDirAll p = .ok fs') : fs' = fs := by
  unfold FileSystem.createDirAll at h
  cases hl : mapLookup fs.failing p with
  | some e =>
      rw [hl] at h
      exact Except.noConfusion h
  | none =>
      rw [hl] at h
      injection h with h2
      exact h2.symm

theorem createDir_ok (fs fs' : FileSystem) (p : PathBuf)
    (h : fs.createDir p = .ok fs') : fs' = fs := by
  unfold FileSystem.createDir at h
  cases hl : mapLookup fs.failing p with
  | some e =>
      rw [hl] at h
      exact Except.noConfusion h
  | none =>
      rw [hl] at h
      injection h with h2
      exact h2.symm

theorem putPublications_cons_error (item : Publication) (rest : List Publication)
    (logId : Uuid) (dirPath : PathBuf) (act : DataLogger) (fs : FileSystem) (e : DataLogError)
    (hw : fs.writeFile (dirPath ++ [toString item.id]) (FileContent.publicationFile item) =
      .error e) :
    putPublications (item :: rest) logId dirPath act fs = (.error e, act, fs) := by
  simp only [putPublications, hw]

theorem putPublications_cons_ok (item : Publication) (rest : List Publication)
    (logId : Uuid) (dirPath : PathBuf) (act : DataLogger) (fs fs' : FileSystem)
    (hw : fs.writeFile (dirPath ++ [toString item.id]) (FileContent.publicationFile item) =
      .ok fs') :
    putPublications (item :: rest) logId dirPath act fs =
      putPublications rest logId dirPath (indexInsertStep act logId item.id) fs' := by
  simp only [putPublications, hw]

theorem putPublications_files_mono (items : List Publication) (logId : Uuid)
    (dirPath : PathBuf) (act : DataLogger) (fs : FileSystem) (q : PathBuf)
    (h : ∃ c, mapLookup fs.files q = some c) :
    ∃ c, mapLookup (putPublications items logId dirPath act fs).2.2.files q = some c := by
  induction items generalizing act fs with
  | nil => simpa [putPublications] using h
  | cons item rest ih =>
      cases hw : fs.writeFile (dirPath ++ [toString item.id]) (FileContent.publicationFile item) with
      | error e =>
          rw [putPublications_cons_error item rest logId dirPath act fs e hw]
          exact h
      | ok fs' =>
          rw [putPublications_cons_ok item rest logId dirPath act fs fs' hw]
          obtain ⟨hfiles, _⟩ := writeFile_ok fs fs' _ _ hw
          refine ih _ fs' ?_
          rw [hfiles]
          exact mapLookup_isSome_mapInsert fs.files _ q _ h

theorem putPublications_index_mono (items : List Publication) (logId : Uuid)
    (dirPath : PathBuf) (act : DataLogger) (fs : FileSystem) (pubId : Uuid)
    (h : pubId ∈ (mapLookup act.log_index logId).getD []) :
    pubId ∈ (mapLookup (putPublications items logId dirPath act fs).2.1.log_index logId).getD [] := by
  induction items generalizing act fs with
  | nil => simpa [putPublications] using h
  | cons item rest ih =>
      cases hw : fs.writeFile (dirPath ++ [toString item.id]) (FileContent.publicationFile item) with
      | error e =>
          rw [putPublications_cons_error item rest logId dirPath act fs e hw]
          exact h
      | ok fs' =>
          rw [putPublications_cons_ok item rest logId dirPath act fs fs' hw]
          refine ih _ fs' ?_
          show pubId ∈ (mapLookup (indexInsertStep act logId item.id).log_index logId).getD []
          simp only [indexInsertStep]
          rw [mapLookup_mapInsert_self]
          exact mem_setInsert_of_mem _ _ _ h

theorem putPublications_preserves (items : List Publication) (logId : Uuid)
    (dirPath : PathBuf) (act : DataLogger) (fs : FileSystem)
    (hdir : dirPath = act.data_dir ++ [toString logId, ("publications")])
    (hinv : IndexDurable act fs) :
    IndexDurable (putPublications items logId dirPath act fs).2.1
      (putPublications items logId dirPath act fs).2.2 := by
  induction items generalizing act fs with
  | nil => simpa [putPublications] using hinv
  | cons item rest ih =>
      cases hw : fs.writeFile (dirPath ++ [toString item.id]) (FileContent.publicationFile item) with
      | error e =>
          rw [putPublications_cons_error item rest logId dirPath act fs e hw]
          exact hinv
      | ok fs' =>
          rw [putPublications_cons_ok item rest logId dirPath act fs fs' hw]
          obtain ⟨hfiles, _⟩ := writeFile_ok fs fs' _ _ hw
          have hpath : dirPath ++ [toString item.id] = pubFilePath act.data_dir logId item.id := by
            rw [hdir]
            simp [pubFilePath]
          have hinv' : IndexDurable (indexInsertStep act logId item.id) fs' := by
            intro logId' idxSet pubId hlk hmem
            simp only [indexInsertStep] at hlk
            show ∃ c, mapLookup fs'.files (pubFilePath act.data_dir logId' pubId) = some c
            by_cases heq : logId = logId'
            · subst heq
              rw [mapLookup_mapInsert_self] at hlk
              have hset := Option.some.inj hlk
              rw [← hset] at hmem
              rcases mem_setInsert_elim _ _ _ hmem with hpe | hpm
              · subst hpe
                refine ⟨FileContent.publicationFile item, ?_⟩
                rw [hfiles, ← hpath]
                exact mapLookup_mapInsert_self _ _ _
              · cases hold : mapLookup act.log_index logId with
                | none => simp [hold] at hpm
                | some s0 =>
                    have := hinv logId s0 pubId hold (by simpa [hold] using hpm)
                    rw [hfiles]
                    exact mapLookup_isSome_mapInsert _ _ _ _ this
            · rw [mapLookup_mapInsert_ne _ _ _ _ heq] at hlk
              have := hinv logId' idxSet pubId hlk hmem
              rw [hfiles]
              exact mapLookup_isSome_mapInsert _ _ _ _ this
          exact ih (indexInsertStep act logId item.id) fs' hdir hinv'

theorem putPublications_ok_mem (items : List Publication) (logId : Uuid)
    (dirPath : PathBuf) (act : DataLogger) (fs : FileSystem)
    (hok : (putPublications items logId dirPath act fs).1 = .ok ()) :
    ∀ item ∈ items,
      (∃ c, mapLookup (putPublications items logId dirPath act fs).2.2.files
          (dirPath ++ [toString item.id]) = some c) ∧
      item.id ∈ (mapLookup (putPublications items logId dirPath act fs).2.1.log_index logId).getD [] := by
  induction items generalizing act fs with
  | nil =>
      intro item hmem
      simp at hmem
  | cons item rest ih =>
      intro it hit
      cases hw : fs.writeFile (dirPath ++ [toString item.id]) (FileContent.publicationFile item) with
      | error e =>
          rw [putPublications_cons_error item rest logId dirPath act fs e hw] at hok
          simp at hok
      | ok fs' =>
          obtain ⟨hfiles, _⟩ := writeFile_ok fs fs' _ _ hw
          rw [putPublications_cons_ok item rest logId dirPath act fs fs' hw] at hok ⊢
          rcases List.mem_cons.mp hit with hcur | hrest
          · subst hcur
            constructor
            · apply putPublications_files_mono
              rw [hfiles]
              exact ⟨_, mapLookup_mapInsert_self _ _ _⟩
            · apply putPublications_index_mono
              show it.id ∈ (mapLookup (indexInsertStep act logId it.id).log_index logId).getD []
              simp only [indexInsertStep]
              rw [mapLookup_mapInsert_self]
              exact mem_setInsert_self _ _
          · exact ih _ fs' hok it hrest

/-- C7: a `DataLogPut` handler run preserves index durability — every
publication id present in the in-memory index after the run has a durable
entry file at `data_dir/<subscriptionId>/publications/<publicationId>` —
because each entry file is written (failures propagating) before its id is
inserted into the index, so a failed write never adds an id; and a
successfully completed put of publications leaves every written id in the
index with its entry file on disk. -/
theorem put_preserves_index_durability (act : DataLogger) (fs : FileSystem)
    (request : DataLogPut) (hinv : IndexDurable act fs) :
    IndexDurable (act.handleDataLogPut fs request).2.1 (act.handleDataLogPut fs request).2.2 ∧
    (∀ entries, request.data_log_entry = DataLogEntry.Publications entries →
      (act.handleDataLogPut fs request).1 = Except.ok () →
      ∀ item ∈ entries,
        (∃ c, mapLookup (act.handleDataLogPut fs request).2.2.files
            (pubFilePath act.data_dir request.data_log_id item.id) = some c) ∧
        item.id ∈
          (mapLookup (act.handleDataLogPut fs request).2.1.log_index request.data_log_id).getD []) := by
  obtain ⟨logId, entry⟩ := request
  dsimp only
  cases entry with
  | Subscribers subs =>
      cases hc : fs.createDir (act.data_dir ++ [toString logId]) with
      | error e =>
          have hrun : act.handleDataLogPut fs ⟨logId, DataLogEntry.Subscribers subs⟩ =
              (.error e, act, fs) := by
            simp [DataLogger.handleDataLogPut, hc]
          rw [hrun]
          exact ⟨hinv, fun es hes => absurd hes (by simp)⟩
      | ok fs1 =>
          obtain rfl := (createDir_ok fs fs1 _ hc).symm
          cases hw : fs.writeFile (act.data_dir ++ [toString logId, ("subscribers")])
              (FileContent.subscribersFile subs) with
          | error e =>
              have hrun : act.handleDataLogPut fs ⟨logId, DataLogEntry.Subscribers subs⟩ =
                  (.error e, act, fs) := by
                simp [DataLogger.handleDataLogPut, hc, hw]
              rw [hrun]
              exact ⟨hinv, fun es hes => absurd hes (by simp)⟩
          | ok fs2 =>
              have hrun : act.handleDataLogPut fs ⟨logId, DataLogEntry.Subscribers subs⟩ =
                  (.ok (), act, fs2) := by
                simp [DataLogger.handleDataLogPut, hc, hw]
              rw [hrun]
              obtain ⟨hfiles, _⟩ := writeFile_ok fs fs2 _ _ hw
              refine ⟨?_, fun es hes => absurd hes (by simp)⟩
              intro lg idxSet pubId hlk hmem
              have := hinv lg idxSet pubId hlk hmem
              show ∃ c, mapLookup fs2.files (pubFilePath act.data_dir lg pubId) = some c
              rw [hfiles]
              exact mapLookup_isSome_mapInsert _ _ _ _ this
  | Publications entries =>
      cases hc : fs.createDirAll (act.data_dir ++ [toString logId, ("publications")]) with
      | error e =>
          have hrun : act.handleDataLogPut fs ⟨logId, DataLogEntry.Publications entries⟩ =
              (.error e, act, fs) := by
            simp [DataLogger.handleDataLogPut, hc]
          rw [hrun]
          refine ⟨hinv, ?_⟩
          intro es hes hok
          simp at hok
      | ok fs1 =>
          obtain rfl := (createDirAll_ok fs fs1 _ hc).symm
          have hrun : act.handleDataLogPut fs ⟨logId, DataLogEntry.Publications entries⟩ =
              putPublications entries logId (act.data_dir ++ [toString logId, ("publications")])
                act fs := by
            simp [DataLogger.handleDataLogPut, hc]
          rw [hrun]
          refine ⟨putPublications_preserves entries logId _ act fs rfl hinv, ?_⟩
          intro es hes hok
          have hes' : es = entries := by
            injection hes with h2
            exact h2.symm
          subst hes'
          intro item hitem
          have h2 := putPublications_ok_mem es logId
            (act.data_dir ++ [toString logId, ("publications")]) act fs hok item hitem
          refine ⟨?_, h2.2⟩
          have hpath : (act.data_dir ++ [toString logId, ("publications")]) ++ [toString item.id] =
              pubFilePath act.data_dir logId item.id := by
            simp [pubFilePath]
          rw [← hpath]
          exact h2.1

/-- Closed witness for `put_preserves_index_durability`: a put of one
publication into an empty data logger ends with the entry file on disk and
its id in the index. -/
theorem put_preserves_index_durability_witness :
    (∃ c, mapLookup (dataLoggerEmptyIndex.handleDataLogPut emptyFs demoPutRequest).2.2.files
        (pubFilePath [("data")] 9 4) = some c) ∧
    4 ∈ (mapLookup (dataLoggerEmptyIndex.handleDataLogPut emptyFs demoPutRequest).2.1.log_index 9).getD [] := by
  have hinv : IndexDurable dataLoggerEmptyIndex emptyFs := by
    intro logId idxSet pubId hlk _
    simp [dataLoggerEmptyIndex, mapLookup] at hlk
  have h := (put_preserves_index_durability dataLoggerEmptyIndex emptyFs demoPutRequest hinv).2
    [{ id := 4, data := [1] }] rfl rfl { id := 4, data := [1] } (by simp)
  exact ⟨h.1, h.2⟩

theorem readEntries_all_present (fs : FileSystem) (dirPath : PathBuf) (ids : List Uuid)
    (f : Uuid → Publication)
    (h : ∀ id ∈ ids, mapLookup fs.failing (dirPath ++ [toString id]) = none ∧
        mapLookup fs.files (dirPath ++ [toString id]) =
          some (FileContent.publicationFile (f id))) :
    readEntries fs dirPath ids = .ok (ids.map f) := by
  induction ids with
  | nil => rfl
  | cons i rest ih =>
      obtain ⟨hf, hfile⟩ := h i (by simp)
      have hrest := ih (fun id hid => h id (by simp [hid]))
      simp [readEntries, FileSystem.readFile, hf, hfile, decodePublication, hrest, Except.map]

theorem readEntries_missing (fs : FileSystem) (dirPath : PathBuf) (ids : List Uuid)
    (hok : ∀ id ∈ ids, mapLookup fs.failing (dirPath ++ [toString id]) = none ∧
        ∀ c, mapLookup fs.files (dirPath ++ [toString id]) = some c →
          ∃ p, c = FileContent.publicationFile p)
    (hmiss : ∃ id ∈ ids, mapLookup fs.files (dirPath ++ [toString id]) = none) :
    readEntries fs dirPath ids = .error (DataLogError.FileSystem enoentMsg) := by
  induction ids with
  | nil => simp at hmiss
  | cons i rest ih =>
      obtain ⟨hf, hdec⟩ := hok i (by simp)
      cases hfi : mapLookup fs.files (dirPath ++ [toString i]) with
      | none => simp [readEntries, FileSystem.readFile, hf, hfi]
      | some c =>
          obtain ⟨p, hp⟩ := hdec c hfi
          subst hp
          have hmiss' : ∃ id ∈ rest, mapLookup fs.files (dirPath ++ [toString id]) = none := by
            rcases hmiss with ⟨id, hid, hnone⟩
            rcases List.mem_cons.mp hid with h1 | h1
            · subst h1
              rw [hfi] at hnone
              exact Option.noConfusion hnone
            · exact ⟨id, h1, hnone⟩
          have hrest := ih (fun id hid => hok id (by simp [hid])) hmiss'
          simp [readEntries, FileSystem.readFile, hf, hfi, decodePublication, hrest, Except.map]

/-- C8 amended: a pull-entries request reads and decodes the requested files
in the order given and replies with the decoded publications in that same
order; if any requested file is missing, the whole request fails with the
filesystem read error carrying the bare OS error text — which does not name
the missing publicationId — and nothing is sent. -/
theorem fetch_order_and_missing_error (act : DataLogger) (fs : FileSystem)
    (svc : SessionService) (client logId : Uuid) (ids : List Uuid) (a : ActorAddr)
    (f : Uuid → Publication)
    (hres : mapLookup svc.sessions client = some a) :
    ((∀ id ∈ ids,
        mapLookup fs.failing
          ((act.data_dir ++ [toString logId, ("publications")]) ++ [toString id]) = none ∧
        mapLookup fs.files
          ((act.data_dir ++ [toString logId, ("publications")]) ++ [toString id]) =
            some (FileContent.publicationFile (f id))) →
      act.handleDataLogFetch fs svc ⟨client, logId, ids⟩ none =
        (Except.ok (), [(a, ids.map f)])) ∧
    ((∀ id ∈ ids,
        mapLookup fs.failing
          ((act.data_dir ++ [toString logId, ("publications")]) ++ [toString id]) = none ∧
        ∀ c, mapLookup fs.files
            ((act.data_dir ++ [toString logId, ("publications")]) ++ [toString id]) = some c →
          ∃ p, c = FileContent.publicationFile p) →
      (∃ id ∈ ids, mapLookup fs.files
          ((act.data_dir ++ [toString logId, ("publications")]) ++ [toString id]) = none) →
      act.handleDataLogFetch fs svc ⟨client, logId, ids⟩ none =
        (Except.error (DataLogError.FileSystem enoentMsg), [])) := by
  constructor
  · intro hall
    have hread := readEntries_all_present fs (act.data_dir ++ [toString logId, ("publications")])
      ids f hall
    simp [DataLogger.handleDataLogFetch, SessionService.get_session_addr, hres,
      Except.toOption, hread]
  · intro hok hmiss
    have hread := readEntries_missing fs (act.data_dir ++ [toString logId, ("publications")])
      ids hok hmiss
    simp [DataLogger.handleDataLogFetch, SessionService.get_session_addr, hres,
      Except.toOption, hread]

/-- C8 counterexample: with no files on disk, fetching the single missing
entry 7 and fetching the single missing entry 8 fail with the identical
filesystem error — the bare OS text for a missing file — so the error does
not name the missing publicationId (the decimal rendering of 7 does not even
occur in the message). -/
theorem fetch_missing_error_names_no_id_cex :
    dataLoggerEmptyIndex.handleDataLogFetch emptyFs sessionSvcOne ⟨3, 9, [7]⟩ none =
      (Except.error (DataLogError.FileSystem ("No such file or directory (os error 2)")), []) ∧
    dataLoggerEmptyIndex.handleDataLogFetch emptyFs sessionSvcOne ⟨3, 9, [8]⟩ none =
      dataLoggerEmptyIndex.handleDataLogFetch emptyFs sessionSvcOne ⟨3, 9, [7]⟩ none ∧
    ¬ (toString (7 : Uuid)).data <:+: enoentMsg.data := by
  refine ⟨rfl, rfl, by decide⟩

/-- Closed witness for `fetch_order_and_missing_error`: both entries of log 9
are fetched in request order, and a request naming the missing entry 6 fails
with the anonymous filesystem error. -/
theorem fetch_order_and_missing_error_witness :
    dataLoggerEmptyIndex.handleDataLogFetch fsTwoEntries sessionSvcOne ⟨3, 9, [5, 4]⟩ none =
      (Except.ok (), [(30, [{ id := 5, data := [2] }, { id := 4, data := [1] }])]) ∧
    dataLoggerEmptyIndex.handleDataLogFetch fsTwoEntries sessionSvcOne ⟨3, 9, [6]⟩ none =
      (Except.error (DataLogError.FileSystem enoentMsg), []) := by
  have h45 := fetch_order_and_missing_error dataLoggerEmptyIndex fsTwoEntries sessionSvcOne
    3 9 [5, 4] 30 (fun id => if id = 5 then { id := 5, data := [2] } else { id := 4, data := [1] })
    rfl
  have h6 := fetch_order_and_missing_error dataLoggerEmptyIndex fsTwoEntries sessionSvcOne
    3 9 [6] 30 (fun id => { id := 4, data := [1] }) rfl
  constructor
  · have := h45.1 (by decide)
    simpa using this
  · refine h6.2 ?_ (by decide)
    intro id hid
    have hid6 : id = 6 := by simpa using hid
    subst hid6
    refine ⟨rfl, ?_⟩
    intro c hc
    have hn : mapLookup fsTwoEntries.files
        ((dataLoggerEmptyIndex.data_dir ++ [toString (9 : Uuid), ("publications")]) ++
          [toString (6 : Uuid)]) = none := rfl
    rw [hn] at hc
    exact Option.noConfusion hc
